import Mathlib

/-!
Shallow embedding of the BE-Helper order/location/realtime services.

The definitions mirror the Go sources:
* order state machine and broadcast matcher
  (`services/order-service/internal/services/order_service.go`,
   `internal/repository/order_repository.go`,
   `internal/repository/broadcast_repository.go`),
* the RabbitMQ event-bus client (`internal/events/rabbitmq.go`),
* the websocket Hub (`websocket` package, `Hub.Run`),
* the location tracker (`services/location-service/.../location_repository.go`
  and the location service in the same file).

UUIDs are modelled as `Nat`, wall-clock times as `Nat` (the Go zero value
`time.Time{}` is `0`), float64 coordinates/amounts as `Rat`.  The database
is an in-memory list of rows; GORM `Save` is replace-by-primary-key,
`First`/`Where ... First` is first match in insertion order.  Repository
calls are modelled as total (infrastructure failures out of scope); the
business-level error returns of the Go services are `Except String`.
-/

abbrev Uuid := Nat

abbrev Time := Nat

/-- Go `time.Time{}` zero value. -/
def timeZero : Time := 0

/-- Order lifecycle statuses, from `models.OrderStatus` constants. -/
inductive OrderStatus where
  | pending
  | accepted
  | onTheWay
  | arrived
  | inProgress
  | completed
  | cancelled
deriving DecidableEq, Repr

/-- `models.Order` (GORM relation field `Broadcasts` lives in `OrderDB`). -/
structure Order where
  id : Uuid
  orderNumber : String
  clientID : Uuid
  serviceProviderID : Option Uuid
  status : OrderStatus
  description : String
  serviceLatitude : Rat
  serviceLongitude : Rat
  serviceAddress : String
  requestedTime : Time
  broadcastTime : Option Time
  acceptedTime : Option Time
  arrivedTime : Option Time
  startedTime : Option Time
  completedTime : Option Time
  cancelledTime : Option Time
  durationMinutes : Int
  baseAmount : Rat
  serviceFee : Rat
  totalAmount : Rat
  cancellationReason : String
  cancelledBy : Option Uuid
deriving DecidableEq, Repr

/-- `models.OrderBroadcast`. -/
structure OrderBroadcast where
  id : Uuid
  orderID : Uuid
  providerID : Uuid
  notifiedAt : Time
  seenAt : Option Time
  isAccepted : Bool
deriving DecidableEq, Repr

/-- `models.CreateOrderRequest`. -/
structure CreateOrderRequest where
  clientID : Uuid
  description : String
  serviceLatitude : Rat
  serviceLongitude : Rat
  serviceAddress : String
  requestedTime : Time
deriving DecidableEq, Repr

/-- The order-service database: `orders` and `order_broadcasts` tables. -/
structure OrderDB where
  orders : List Order
  broadcasts : List OrderBroadcast
deriving DecidableEq, Repr

/-- `orderRepository.GetByID`: `First(&order, "id = ?", id)`. -/
def OrderDB.getByID (db : OrderDB) (id : Uuid) : Option Order :=
  db.orders.find? (fun o => o.id = id)

/-- `orderRepository.Create`: `db.Create(order)` appends a row. -/
def OrderDB.createOrderRow (db : OrderDB) (o : Order) : OrderDB :=
  { db with orders := db.orders ++ [o] }

/-- `orderRepository.Update`: GORM `Save` replaces the row(s) with the
    same primary key, inserting when the key is absent. -/
def OrderDB.updateOrder (db : OrderDB) (o : Order) : OrderDB :=
  if db.orders.any (fun r => r.id = o.id) then
    { db with orders := db.orders.map (fun r => if r.id = o.id then o else r) }
  else
    { db with orders := db.orders ++ [o] }

/-- `broadcastRepository.MarkAsAccepted`: `UPDATE ... SET is_accepted = true
    WHERE order_id = ? AND provider_id = ?`. -/
def OrderDB.markAsAccepted (db : OrderDB) (orderID providerID : Uuid) : OrderDB :=
  { db with
    broadcasts := db.broadcasts.map (fun b =>
      if b.orderID = orderID ∧ b.providerID = providerID then
        { b with isAccepted := true }
      else b) }

/-- `broadcastRepository.GetAcceptedBroadcast`. -/
def OrderDB.getAcceptedBroadcast (db : OrderDB) (orderID : Uuid) : Option OrderBroadcast :=
  db.broadcasts.find? (fun b => b.orderID = orderID ∧ b.isAccepted = true)

/-- `orderService.CreateOrder`.  The row is inserted with
    `BroadcastTime: &time.Time{}`; only afterwards is the in-memory
    struct's broadcast time set to `now`, and it is never written back.
    `oid` stands for the store-generated primary key, `orderNumber` for the
    `ORD-<unix>` string.  The pair is the database after the call and the
    business result (the returned in-memory order). -/
def createOrder (db : OrderDB) (req : CreateOrderRequest) (oid : Uuid)
    (orderNumber : String) (now : Time) : OrderDB × Except String Order :=
  let order : Order :=
    { id := oid
      orderNumber := orderNumber
      clientID := req.clientID
      serviceProviderID := none
      status := .pending
      description := req.description
      serviceLatitude := req.serviceLatitude
      serviceLongitude := req.serviceLongitude
      serviceAddress := req.serviceAddress
      requestedTime := req.requestedTime
      broadcastTime := some timeZero
      acceptedTime := none
      arrivedTime := none
      startedTime := none
      completedTime := none
      cancelledTime := none
      durationMinutes := 0
      baseAmount := 0
      serviceFee := 0
      totalAmount := 0
      cancellationReason := ""
      cancelledBy := none }
  let db' := db.createOrderRow order
  let returned := { order with broadcastTime := some now }
  (db', .ok returned)

/-- `orderService.AcceptOrder`, run as one atomic (sequential) call. -/
def acceptOrder (db : OrderDB) (orderID providerID : Uuid) (now : Time) :
    OrderDB × Except String Order :=
  match db.getByID orderID with
  | none => (db, .error "order not found")
  | some order =>
    if order.status ≠ OrderStatus.pending then
      (db, .error "order is no longer available for acceptance")
    else
      let order' := { order with
        serviceProviderID := some providerID
        status := .accepted
        acceptedTime := some now }
      let db1 := db.updateOrder order'
      let db2 := db1.markAsAccepted orderID providerID
      (db2, .ok order')

/-- `orderService.UpdateToOnTheWay`.  The status check precedes the
    provider-authorization check, as in the Go source. -/
def updateToOnTheWay (db : OrderDB) (orderID providerID : Uuid) :
    OrderDB × Except String Order :=
  match db.getByID orderID with
  | none => (db, .error "order not found")
  | some order =>
    if order.status ≠ OrderStatus.accepted then
      (db, .error "order is not in accepted status")
    else if order.serviceProviderID = none ∨ order.serviceProviderID ≠ some providerID then
      (db, .error "unauthorized to update this order")
    else
      let order' := { order with status := .onTheWay }
      (db.updateOrder order', .ok order')

/-- `orderService.UpdateToArrived`. -/
def updateToArrived (db : OrderDB) (orderID providerID : Uuid) (now : Time) :
    OrderDB × Except String Order :=
  match db.getByID orderID with
  | none => (db, .error "order not found")
  | some order =>
    if order.status ≠ OrderStatus.onTheWay then
      (db, .error "order is not on the way")
    else if order.serviceProviderID = none ∨ order.serviceProviderID ≠ some providerID then
      (db, .error "unauthorized to update this order")
    else
      let order' := { order with status := .arrived, arrivedTime := some now }
      (db.updateOrder order', .ok order')

/-- `orderService.CancelOrder`. -/
def cancelOrder (db : OrderDB) (orderID cancelledBy : Uuid) (reason : String)
    (now : Time) : OrderDB × Except String Order :=
  match db.getByID orderID with
  | none => (db, .error "order not found")
  | some order =>
    if order.status = OrderStatus.completed ∨ order.status = OrderStatus.cancelled then
      (db, .error "order cannot be cancelled")
    else if order.clientID ≠ cancelledBy ∧
        (order.serviceProviderID = none ∨ order.serviceProviderID ≠ some cancelledBy) then
      (db, .error "unauthorized to cancel this order")
    else
      let order' := { order with
        status := .cancelled
        cancelledTime := some now
        cancelledBy := some cancelledBy
        cancellationReason := reason }
      (db.updateOrder order', .ok order')

/-! ## The order-service operations as one untyped step function -/

/-- One mutating call of the order service, with the arguments the Go
    handlers pass in. -/
inductive OrderOp where
  | create (req : CreateOrderRequest) (oid : Uuid) (orderNumber : String) (now : Time)
  | accept (orderID providerID : Uuid) (now : Time)
  | onTheWay (orderID providerID : Uuid)
  | arrived (orderID providerID : Uuid) (now : Time)
  | cancel (orderID cancelledBy : Uuid) (reason : String) (now : Time)
deriving DecidableEq, Repr

/-- Run one order-service call against the store. -/
def applyOp (db : OrderDB) : OrderOp → OrderDB × Except String Order
  | .create req oid orderNumber now => createOrder db req oid orderNumber now
  | .accept orderID providerID now => acceptOrder db orderID providerID now
  | .onTheWay orderID providerID => updateToOnTheWay db orderID providerID
  | .arrived orderID providerID now => updateToArrived db orderID providerID now
  | .cancel orderID cancelledBy reason now => cancelOrder db orderID cancelledBy reason now

/-! ## Concurrent `AcceptOrder` calls

In the Go service an `AcceptOrder` call performs separate store
round-trips: `GetByID` (read), then — when the snapshot was PENDING —
`Update` followed by `MarkAsAccepted` (writes).  Two concurrent calls
interleave these round-trips.  Each in-flight call is a thread holding
the snapshot its read returned; a scheduler picks which thread performs
its next round-trip.  (Merging `Update` and `MarkAsAccepted` into a
single write step only makes the model more atomic than the Go code.) -/

instance {ε α : Type} [DecidableEq ε] [DecidableEq α] : DecidableEq (Except ε α) :=
  fun a b =>
    match a, b with
    | .error e1, .error e2 =>
      if h : e1 = e2 then isTrue (by subst h; rfl)
      else isFalse (fun hc => h (by cases hc; rfl))
    | .error _, .ok _ => isFalse (fun hc => by cases hc)
    | .ok _, .error _ => isFalse (fun hc => by cases hc)
    | .ok a1, .ok a2 =>
      if h : a1 = a2 then isTrue (by subst h; rfl)
      else isFalse (fun hc => h (by cases hc; rfl))

/-- An in-flight `AcceptOrder` call.  `snapshot = none` before the
    `GetByID` round-trip; `result = none` while still running. -/
structure AcceptThread where
  providerID : Uuid
  now : Time
  snapshot : Option (Option Order)
  result : Option (Except String Order)
deriving DecidableEq, Repr

/-- A fresh `AcceptOrder` call by `providerID`. -/
def AcceptThread.start (providerID : Uuid) (now : Time) : AcceptThread :=
  { providerID := providerID, now := now, snapshot := none, result := none }

/-- Perform the next store round-trip of one in-flight call, mirroring
    the statements of `orderService.AcceptOrder` in order. -/
def acceptStep (db : OrderDB) (orderID : Uuid) (t : AcceptThread) :
    OrderDB × AcceptThread :=
  match t.result with
  | some _ => (db, t)
  | none =>
    match t.snapshot with
    | none => (db, { t with snapshot := some (db.getByID orderID) })
    | some none => (db, { t with result := some (.error "order not found") })
    | some (some order) =>
      if order.status ≠ OrderStatus.pending then
        (db, { t with result := some (.error "order is no longer available for acceptance") })
      else
        let order' := { order with
          serviceProviderID := some t.providerID
          status := .accepted
          acceptedTime := some t.now }
        let db1 := db.updateOrder order'
        let db2 := db1.markAsAccepted orderID t.providerID
        (db2, { t with result := some (.ok order') })

/-- Interleave two `AcceptOrder` calls on the same order: `true` in the
    schedule steps the first caller, `false` the second. -/
def runAcceptRace (db : OrderDB) (orderID : Uuid) (t1 t2 : AcceptThread) :
    List Bool → OrderDB × AcceptThread × AcceptThread
  | [] => (db, t1, t2)
  | b :: rest =>
    if b then
      let (db', t1') := acceptStep db orderID t1
      runAcceptRace db' orderID t1' t2 rest
    else
      let (db', t2') := acceptStep db orderID t2
      runAcceptRace db' orderID t1 t2' rest

/-! ## The broadcast-row invariant -/

/-- At most one broadcast row per order has `is_accepted = true`
    (rows compared as values). -/
def AtMostOneAccepted (db : OrderDB) : Prop :=
  ∀ b1 ∈ db.broadcasts, ∀ b2 ∈ db.broadcasts,
    b1.isAccepted = true → b2.isAccepted = true → b1.orderID = b2.orderID → b1 = b2

instance (db : OrderDB) : Decidable (AtMostOneAccepted db) := by
  unfold AtMostOneAccepted; infer_instance

/-- An accepted broadcast row certifies that its order has left PENDING. -/
def AcceptedRowsCoupled (db : OrderDB) : Prop :=
  ∀ b ∈ db.broadcasts, b.isAccepted = true →
    ∀ o ∈ db.orders, o.id = b.orderID → o.status ≠ OrderStatus.pending

instance (db : OrderDB) : Decidable (AcceptedRowsCoupled db) := by
  unfold AcceptedRowsCoupled; infer_instance

/-- The broadcast table holds at most one row per (order, provider) pair;
    the matcher creates one row per candidate provider. -/
def BroadcastPairsUnique (db : OrderDB) : Prop :=
  ∀ b1 ∈ db.broadcasts, ∀ b2 ∈ db.broadcasts,
    b1.orderID = b2.orderID → b1.providerID = b2.providerID → b1 = b2

instance (db : OrderDB) : Decidable (BroadcastPairsUnique db) := by
  unfold BroadcastPairsUnique; infer_instance

/-- The state invariant of the broadcast matcher. -/
def OrderInv (db : OrderDB) : Prop :=
  AtMostOneAccepted db ∧ AcceptedRowsCoupled db

instance (db : OrderDB) : Decidable (OrderInv db) := by
  unfold OrderInv; infer_instance

/-- A `create` call must use a store-generated key: no existing broadcast
    row (they are never deleted and reference real orders) mentions it.
    The other calls carry no freshness obligation. -/
def OpWF (db : OrderDB) : OrderOp → Prop
  | .create _ oid _ _ => ∀ b ∈ db.broadcasts, b.orderID ≠ oid
  | _ => True

instance (db : OrderDB) (op : OrderOp) : Decidable (OpWF db op) := by
  unfold OpWF; cases op <;> infer_instance

/-! ## The websocket Hub (`websocket` package, `Hub.Run`)

`Hub.clients` is a map `orderID → set of *Client`; each client owns a
buffered outbound channel `send`.  Clients are identified by their pointer,
modelled as a numeric `id`; the channel is modelled as the list of frames
it buffers, full when its length reaches the channel capacity `cap`
(the `make(chan ..., n)` argument).  `closed` records the channels on
which `close(client.send)` has been called. -/

structure Conn where
  id : Nat
  orderID : String
  cap : Nat
deriving DecidableEq, Repr

structure HubState where
  clients : List (String × List Conn)
  queues : List (Nat × List String)
  closed : List Nat
deriving DecidableEq, Repr

/-- `h.clients[key]`: a missing key reads as the empty (nil) set. -/
def lookupConns (reg : List (String × List Conn)) (k : String) : List Conn :=
  match reg.find? (fun e => e.1 = k) with
  | some e => e.2
  | none => []

/-- Map write `h.clients[k] = cs` (upsert). -/
def setConns (reg : List (String × List Conn)) (k : String) (cs : List Conn) :
    List (String × List Conn) :=
  if reg.any (fun e => e.1 = k) then
    reg.map (fun e => if e.1 = k then (k, cs) else e)
  else
    reg ++ [(k, cs)]

/-- `delete(h.clients, k)`. -/
def removeKey (reg : List (String × List Conn)) (k : String) :
    List (String × List Conn) :=
  reg.filter (fun e => ¬ e.1 = k)

/-- The frames currently buffered in connection `cid`'s send channel. -/
def queueOf (h : HubState) (cid : Nat) : List String :=
  match h.queues.find? (fun e => e.1 = cid) with
  | some e => e.2
  | none => []

/-- Replace the buffer of channel `cid`. -/
def setQueue (qs : List (Nat × List String)) (cid : Nat) (q : List String) :
    List (Nat × List String) :=
  if qs.any (fun e => e.1 = cid) then
    qs.map (fun e => if e.1 = cid then (cid, q) else e)
  else
    qs ++ [(cid, q)]

/-- The `register` case of `Hub.Run`: create the key's set if missing and
    insert the client. -/
def hubRegister (h : HubState) (c : Conn) : HubState :=
  let cs := lookupConns h.clients c.orderID
  if c ∈ cs then h
  else { h with clients := setConns h.clients c.orderID (cs ++ [c]) }

/-- The `unregister` case of `Hub.Run`: when the client is present under
    its key, remove it, close its send channel, and drop the key once its
    set is empty; otherwise do nothing. -/
def hubUnregister (h : HubState) (c : Conn) : HubState :=
  match h.clients.find? (fun e => e.1 = c.orderID) with
  | none => h
  | some e =>
    if c ∈ e.2 then
      let cs' := e.2.erase c
      { clients :=
          if cs' = [] then removeKey h.clients c.orderID
          else setConns h.clients c.orderID cs'
        queues := h.queues
        closed := h.closed ++ [c.id] }
    else h

/-- One `select { case client.send <- data: ... default: ... }` attempt of
    the broadcast loop: non-blocking send when the channel has room,
    otherwise `close(client.send)` and `delete(h.clients[key], client)`. -/
def hubSendAttempt (key frame : String) (h : HubState) (c : Conn) : HubState :=
  if (queueOf h c.id).length < c.cap then
    { h with queues := setQueue h.queues c.id (queueOf h c.id ++ [frame]) }
  else
    { clients := setConns h.clients key ((lookupConns h.clients key).erase c)
      queues := h.queues
      closed := h.closed ++ [c.id] }

/-- The `broadcast` case of `Hub.Run`: snapshot `clients := h.clients[key]`
    and attempt the non-blocking send for each client in it. -/
def hubBroadcast (h : HubState) (key frame : String) : HubState :=
  (lookupConns h.clients key).foldl (hubSendAttempt key frame) h

/-- Well-formedness maintained by the run loop: each key's set has no
    duplicates, clients sit under their own `orderID` key, and a client
    pointer (id) determines the client and its key. -/
def HubWF (h : HubState) : Prop :=
  (∀ e ∈ h.clients, e.2.Nodup) ∧
  (∀ e ∈ h.clients, ∀ c ∈ e.2, c.orderID = e.1) ∧
  (∀ e1 ∈ h.clients, ∀ e2 ∈ h.clients, ∀ c1 ∈ e1.2, ∀ c2 ∈ e2.2,
    c1.id = c2.id → c1 = c2 ∧ e1.1 = e2.1)

instance (h : HubState) : Decidable (HubWF h) := by
  unfold HubWF; infer_instance

/-! ## The event-bus client (`events/rabbitmq.go`) -/

/-- The flags `RabbitMQ.Consume` passes to `QueueDeclare` and
    `channel.Consume`. -/
structure ConsumeConfig where
  queue : String
  durableQueue : Bool
  autoAck : Bool
  exclusive : Bool
deriving DecidableEq, Repr

/-- `RabbitMQ.Consume queue exchange routingKey`: the queue is declared
    durable and the consumer is registered with `auto-ack` set to `true`. -/
def rabbitConsume (queue : String) : ConsumeConfig :=
  { queue := queue, durableQueue := true, autoAck := true, exclusive := false }

/-- Broker-side fate of one delivered message. -/
inductive AckDisposition where
  | ackedOnDelivery
  | ackedAfterHandler
  | requeued
deriving DecidableEq, Repr

/-- AMQP acknowledgement semantics of a consumer configuration: with
    `auto-ack` the broker considers the message acknowledged as soon as it
    is delivered, before the handler runs; without it, acknowledgement
    waits for a successful handler and a handler error is nacked back into
    the queue (the notification-service consumer follows the manual
    discipline). -/
def deliveryDisposition (cfg : ConsumeConfig) (handlerSucceeds : Bool) :
    AckDisposition :=
  if cfg.autoAck then .ackedOnDelivery
  else if handlerSucceeds then .ackedAfterHandler
  else .requeued

/-! ## The location tracker (`location-service`) -/

/-- `models.OrderTracking` (`order_id` carries a unique index). -/
structure OrderTracking where
  id : Uuid
  orderID : Uuid
  serviceProviderID : Uuid
  currentLatitude : Rat
  currentLongitude : Rat
  distanceKm : Rat
  estimatedArrivalMinutes : Int
  trackingStatus : String
  lastUpdated : Time
deriving DecidableEq, Repr

/-- `models.LocationHistory`. -/
structure LocationHistory where
  id : Uuid
  orderID : Uuid
  serviceProviderID : Uuid
  latitude : Rat
  longitude : Rat
  speedKmh : Rat
  accuracyMeters : Int
  headingDegrees : Int
  recordedAt : Time
deriving DecidableEq, Repr

/-- `models.UpdateLocationRequest`. -/
structure UpdateLocationRequest where
  orderID : Uuid
  serviceProviderID : Uuid
  latitude : Rat
  longitude : Rat
  speedKmh : Rat
  accuracyMeters : Int
  headingDegrees : Int
deriving DecidableEq, Repr

/-- `models.LocationResponse`. -/
structure LocationResponse where
  orderID : Uuid
  serviceProviderID : Uuid
  latitude : Rat
  longitude : Rat
  distanceKm : Rat
  estimatedArrivalMinutes : Int
  trackingStatus : String
  lastUpdated : Time
deriving DecidableEq, Repr

/-- The location-service database: `order_trackings` and
    `location_histories` tables. -/
structure LocationDB where
  trackings : List OrderTracking
  histories : List LocationHistory
deriving DecidableEq, Repr

/-- `locationRepository.GetTrackingByOrderID`. -/
def LocationDB.getTrackingByOrderID (db : LocationDB) (orderID : Uuid) :
    Option OrderTracking :=
  db.trackings.find? (fun t => t.orderID = orderID)

/-- `locationRepository.CreateTracking`. -/
def LocationDB.createTracking (db : LocationDB) (t : OrderTracking) : LocationDB :=
  { db with trackings := db.trackings ++ [t] }

/-- `locationRepository.UpdateTracking`: GORM `Save`, replace by primary
    key (insert when absent). -/
def LocationDB.updateTracking (db : LocationDB) (t : OrderTracking) : LocationDB :=
  if db.trackings.any (fun r => r.id = t.id) then
    { db with trackings := db.trackings.map (fun r => if r.id = t.id then t else r) }
  else
    { db with trackings := db.trackings ++ [t] }

/-- `locationRepository.CreateLocationHistory`. -/
def LocationDB.createLocationHistory (db : LocationDB) (row : LocationHistory) :
    LocationDB :=
  { db with histories := db.histories ++ [row] }

/-- Go `int(x)` on a float: truncation toward zero. -/
def truncToInt (q : Rat) : Int := q.num.tdiv q.den

/-- `locationService.UpdateLocation`.  `calcDist` is the pluggable
    distance strategy (the Go `calculateDistance` Haversine, applied to
    the placeholder destination `(0, 0)`); `tid`/`hid` are the
    store-generated keys for a fresh tracking/history row.  If no
    tracking row exists one is created from the report, otherwise the
    existing row's position is overwritten and distance/ETA recomputed;
    in both branches a history row is appended. -/
def updateLocation (calcDist : Rat → Rat → Rat → Rat → Rat) (db : LocationDB)
    (req : UpdateLocationRequest) (now : Time) (tid hid : Uuid) :
    LocationDB × LocationResponse :=
  let history : LocationHistory :=
    { id := hid
      orderID := req.orderID
      serviceProviderID := req.serviceProviderID
      latitude := req.latitude
      longitude := req.longitude
      speedKmh := req.speedKmh
      accuracyMeters := req.accuracyMeters
      headingDegrees := req.headingDegrees
      recordedAt := now }
  match db.getTrackingByOrderID req.orderID with
  | none =>
    let tracking : OrderTracking :=
      { id := tid
        orderID := req.orderID
        serviceProviderID := req.serviceProviderID
        currentLatitude := req.latitude
        currentLongitude := req.longitude
        distanceKm := 0
        estimatedArrivalMinutes := 0
        trackingStatus := "ACTIVE"
        lastUpdated := now }
    let db1 := db.createTracking tracking
    let db2 := db1.createLocationHistory history
    (db2,
      { orderID := tracking.orderID
        serviceProviderID := tracking.serviceProviderID
        latitude := tracking.currentLatitude
        longitude := tracking.currentLongitude
        distanceKm := tracking.distanceKm
        estimatedArrivalMinutes := tracking.estimatedArrivalMinutes
        trackingStatus := tracking.trackingStatus
        lastUpdated := tracking.lastUpdated })
  | some t =>
    let d := calcDist req.latitude req.longitude 0 0
    let t' := { t with
      currentLatitude := req.latitude
      currentLongitude := req.longitude
      lastUpdated := now
      distanceKm := d
      estimatedArrivalMinutes := truncToInt (d * 2) }
    let db1 := db.updateTracking t'
    let db2 := db1.createLocationHistory history
    (db2,
      { orderID := t'.orderID
        serviceProviderID := t'.serviceProviderID
        latitude := t'.currentLatitude
        longitude := t'.currentLongitude
        distanceKm := t'.distanceKm
        estimatedArrivalMinutes := t'.estimatedArrivalMinutes
        trackingStatus := t'.trackingStatus
        lastUpdated := t'.lastUpdated })

/-! ## Concrete fixtures -/

/-- Success test on a business result. -/
def okB : Except String Order → Bool
  | Except.ok _ => true
  | Except.error _ => false

/-- A freshly created PENDING order, id 1, client 10. -/
def exOrder : Order :=
  { id := 1
    orderNumber := "ORD-1"
    clientID := 10
    serviceProviderID := none
    status := .pending
    description := "fix sink"
    serviceLatitude := 0
    serviceLongitude := 0
    serviceAddress := "addr"
    requestedTime := 1
    broadcastTime := some timeZero
    acceptedTime := none
    arrivedTime := none
    startedTime := none
    completedTime := none
    cancelledTime := none
    durationMinutes := 0
    baseAmount := 0
    serviceFee := 0
    totalAmount := 0
    cancellationReason := ""
    cancelledBy := none }

/-- Broadcast row: order 1 offered to provider 7. -/
def exBroadcast7 : OrderBroadcast :=
  { id := 100, orderID := 1, providerID := 7, notifiedAt := 1, seenAt := none,
    isAccepted := false }

/-- Broadcast row: order 1 offered to provider 9. -/
def exBroadcast9 : OrderBroadcast :=
  { id := 101, orderID := 1, providerID := 9, notifiedAt := 1, seenAt := none,
    isAccepted := false }

/-- Order 1 PENDING, broadcast to candidate providers 7 and 9. -/
def raceDB : OrderDB :=
  { orders := [exOrder], broadcasts := [exBroadcast7, exBroadcast9] }

/-- The interleaving in which both callers read before either writes. -/
def raceSchedule : List Bool := [true, false, true, false]

/-- Final state and thread results of the 7-vs-9 accept race under
    `raceSchedule`. -/
def raceOutcome : OrderDB × AcceptThread × AcceptThread :=
  runAcceptRace raceDB 1 (AcceptThread.start 7 2) (AcceptThread.start 9 3) raceSchedule

/-- Order 1 already ARRIVED with assigned provider 7 (a post-acceptance
    state reached by accept → on-the-way → arrived). -/
def arrivedOrder : Order :=
  { exOrder with
    serviceProviderID := some 7
    status := .arrived
    acceptedTime := some 2
    arrivedTime := some 4 }

/-- Store holding `arrivedOrder` and its accepted broadcast row. -/
def arrivedDB : OrderDB :=
  { orders := [arrivedOrder], broadcasts := [{ exBroadcast7 with isAccepted := true }] }

/-! ## Claims -/

/-- C1: two concurrent `AcceptOrder` calls from distinct providers 7 and 9
    on PENDING order 1, interleaved so that both `GetByID` round-trips
    happen before either write.  The initial state satisfies the matcher
    invariants, yet BOTH calls return success (each reporting itself as
    the assigned provider), and the persisted provider is simply the last
    writer's (9) — there is no compare-and-swap, so the claimed
    exactly-one-winner guarantee fails. -/
theorem acceptOrder_race_both_callers_succeed :
    OrderInv raceDB ∧ BroadcastPairsUnique raceDB
  ∧ raceOutcome.2.1.result = some (Except.ok { exOrder with
      serviceProviderID := some 7, status := .accepted, acceptedTime := some 2 })
  ∧ raceOutcome.2.2.result = some (Except.ok { exOrder with
      serviceProviderID := some 9, status := .accepted, acceptedTime := some 3 })
  ∧ (raceOutcome.1.getByID 1).map (fun o => o.serviceProviderID) = some (some 9) := by
  decide

/-- C3 counterexample: the same interleaved accept race drives the store
    into a reachable state in which BOTH broadcast rows of order 1 carry
    `is_accepted = true`, violating the at-most-one-accepted invariant
    (which held in the initial state). -/
theorem race_breaks_at_most_one_accepted :
    OrderInv raceDB ∧ ¬ AtMostOneAccepted raceOutcome.1 := by
  decide

/-- C4 counterexample: order 1 is in the post-acceptance state ARRIVED
    with assigned provider 7; caller 9 (not the assigned provider)
    invokes `UpdateToOnTheWay` and is rejected with the invalid-state
    error, not the "unauthorized" error, because the status check runs
    before the authorization check. -/
theorem updateToOnTheWay_wrong_caller_gets_state_error :
    updateToOnTheWay arrivedDB 1 9 =
      (arrivedDB, .error "order is not in accepted status")
  ∧ "order is not in accepted status" ≠ "unauthorized to update this order" := by
  decide

/-- C5 counterexample: the order-service event bus client registers its
    durable-queue consumer with `auto-ack`; a message whose handler fails
    is still acknowledged on delivery and is never requeued. -/
theorem rabbitConsume_autoAck_no_requeue :
    (rabbitConsume "order.broadcast.queue").durableQueue = true
  ∧ deliveryDisposition (rabbitConsume "order.broadcast.queue") false =
      AckDisposition.ackedOnDelivery
  ∧ deliveryDisposition (rabbitConsume "order.broadcast.queue") false ≠
      AckDisposition.requeued := by
  decide

/-- C5 (amended): every consumer created through the order-service event
    bus client's `Consume` uses auto-acknowledgement — the broker
    acknowledges each delivered message on delivery, before and regardless
    of the handler's outcome, so a handler error never causes redelivery. -/
theorem rabbitConsume_acks_on_delivery (queue : String) (handlerSucceeds : Bool) :
    (rabbitConsume queue).autoAck = true
  ∧ deliveryDisposition (rabbitConsume queue) handlerSucceeds =
      AckDisposition.ackedOnDelivery := by
  exact ⟨rfl, rfl⟩

/-! ## List and store helper lemmas -/

theorem find?_append_none {α : Type} (p : α → Bool) (l1 l2 : List α)
    (h : l1.find? p = none) : (l1 ++ l2).find? p = l2.find? p := by
  induction l1 with
  | nil => rfl
  | cons a as ih =>
    by_cases hpa : p a = true
    · rw [List.find?_cons_of_pos _ hpa] at h; cases h
    · have hpa' : ¬ p a = true := hpa
      rw [List.cons_append, List.find?_cons_of_neg _ hpa']
      rw [List.find?_cons_of_neg _ hpa'] at h
      exact ih h

theorem find?_key_map_replace {α : Type} (key : α → Nat) (l : List α) (k : Nat)
    (x : α) (hk : key x = k) (hex : ∃ r ∈ l, key r = k) :
    (l.map (fun r => if key r = k then x else r)).find? (fun r => key r = k) =
      some x := by
  induction l with
  | nil => rcases hex with ⟨r, hr, _⟩; cases hr
  | cons a as ih =>
    rcases hex with ⟨r, hr, hkey⟩
    by_cases ha : key a = k
    · simp only [List.map_cons, if_pos ha]
      rw [List.find?_cons_of_pos]
      simp [hk]
    · simp only [List.map_cons, if_neg ha]
      rw [List.find?_cons_of_neg]
      · apply ih
        rcases List.mem_cons.mp hr with h1 | h2
        · exact absurd (h1 ▸ hkey) ha
        · exact ⟨r, h2, hkey⟩
      · simpa using ha

theorem getByID_mem_id {db : OrderDB} {oid : Uuid} {o : Order}
    (h : db.getByID oid = some o) : o ∈ db.orders ∧ o.id = oid := by
  refine ⟨List.mem_of_find?_eq_some h, ?_⟩
  simpa using List.find?_some h

@[simp] theorem markAsAccepted_orders (db : OrderDB) (a b : Uuid) :
    (db.markAsAccepted a b).orders = db.orders := rfl

@[simp] theorem markAsAccepted_broadcasts (db : OrderDB) (a b : Uuid) :
    (db.markAsAccepted a b).broadcasts = db.broadcasts.map (fun x =>
      if x.orderID = a ∧ x.providerID = b then { x with isAccepted := true }
      else x) := rfl

@[simp] theorem updateOrder_broadcasts (db : OrderDB) (o : Order) :
    (db.updateOrder o).broadcasts = db.broadcasts := by
  unfold OrderDB.updateOrder; split <;> rfl

theorem updateOrder_orders_of_mem {db : OrderDB} {o' : Order}
    (hex : ∃ r ∈ db.orders, r.id = o'.id) :
    (db.updateOrder o').orders =
      db.orders.map (fun r => if r.id = o'.id then o' else r) := by
  unfold OrderDB.updateOrder
  rw [if_pos]
  rcases hex with ⟨r, hr, hid⟩
  exact List.any_eq_true.mpr ⟨r, hr, by simpa using hid⟩

@[simp] theorem getByID_markAsAccepted (db : OrderDB) (a b i : Uuid) :
    (db.markAsAccepted a b).getByID i = db.getByID i := rfl

theorem getByID_updateOrder_self {db : OrderDB} {oid : Uuid} {o o' : Order}
    (hget : db.getByID oid = some o) (hid : o'.id = o.id) :
    (db.updateOrder o').getByID oid = some o' := by
  obtain ⟨hmem, hoid⟩ := getByID_mem_id hget
  unfold OrderDB.getByID
  rw [updateOrder_orders_of_mem ⟨o, hmem, by rw [hid]⟩]
  have hk : o'.id = oid := hid.trans hoid
  rw [show (fun r : Order => if r.id = o'.id then o' else r)
       = (fun r : Order => if r.id = oid then o' else r) from by
        funext r; rw [hk]]
  exact find?_key_map_replace Order.id _ oid o' hk ⟨o, hmem, hoid⟩

/-- C2: sequential contract of `AcceptOrder`: the call succeeds exactly
    when the order exists and is PENDING; a successful call returns the
    order with the caller as provider, status ACCEPTED and the accepted
    time set, persists exactly that order, and marks every broadcast row
    of this order/provider pair accepted; a non-PENDING order yields the
    conflict error. -/
theorem acceptOrder_contract (db : OrderDB) (orderID providerID : Uuid) (now : Time) :
    (okB (acceptOrder db orderID providerID now).2 = true ↔
       ∃ o, db.getByID orderID = some o ∧ o.status = OrderStatus.pending)
  ∧ (∀ db' o', acceptOrder db orderID providerID now = (db', Except.ok o') →
       o'.serviceProviderID = some providerID
     ∧ o'.status = OrderStatus.accepted
     ∧ o'.acceptedTime = some now
     ∧ db'.getByID orderID = some o'
     ∧ (∀ b ∈ db'.broadcasts, b.orderID = orderID → b.providerID = providerID →
          b.isAccepted = true))
  ∧ (∀ o, db.getByID orderID = some o → o.status ≠ OrderStatus.pending →
       acceptOrder db orderID providerID now =
         (db, Except.error "order is no longer available for acceptance")) := by
  refine ⟨⟨?_, ?_⟩, ?_, ?_⟩
  · intro hok
    cases hg : db.getByID orderID with
    | none => simp [acceptOrder, hg, okB] at hok
    | some o =>
      by_cases hs : o.status = OrderStatus.pending
      · exact ⟨o, rfl, hs⟩
      · simp [acceptOrder, hg, hs, okB] at hok
  · rintro ⟨o, hg, hs⟩
    simp [acceptOrder, hg, hs, okB]
  · intro db' o' heq
    cases hg : db.getByID orderID with
    | none => simp [acceptOrder, hg] at heq
    | some o =>
      by_cases hs : o.status = OrderStatus.pending
      · rw [acceptOrder, hg] at heq
        simp only [hs, ne_eq, not_true_eq_false, if_false, ite_false, if_neg] at heq
        rw [Prod.mk.injEq] at heq
        obtain ⟨hdb', ho'⟩ := heq
        rw [Except.ok.injEq] at ho'
        subst hdb'
        subst ho'
        refine ⟨rfl, rfl, rfl, ?_, ?_⟩
        · rw [getByID_markAsAccepted]
          exact getByID_updateOrder_self hg rfl
        · rw [markAsAccepted_broadcasts, updateOrder_broadcasts]
          intro b hb h1 h2
          rcases List.mem_map.mp hb with ⟨b0, hb0, himg⟩
          by_cases hc : b0.orderID = orderID ∧ b0.providerID = providerID
          · rw [if_pos hc] at himg
            rw [← himg]
          · rw [if_neg hc] at himg
            subst himg
            exact absurd ⟨h1, h2⟩ hc
      · simp [acceptOrder, hg, hs] at heq
  · intro o hg hs
    simp [acceptOrder, hg, hs]

/-- C2 witness: provider 7 successfully accepts PENDING order 1. -/
theorem acceptOrder_contract_witness :
    okB (acceptOrder raceDB 1 7 2).2 = true := by
  have h := (acceptOrder_contract raceDB 1 7 2).1
  exact h.mpr ⟨exOrder, by decide, by decide⟩

/-- C8: any order-service mutating call that returns an error — order not
    found, state conflict, or authorization failure — leaves the persisted
    store exactly as it was: every check precedes every write, so a
    rejected transition mutates nothing. -/
theorem rejected_op_leaves_store_unchanged (db : OrderDB) (op : OrderOp)
    (h : okB (applyOp db op).2 = false) : (applyOp db op).1 = db := by
  cases op with
  | create req oid num now => simp [applyOp, createOrder, okB] at h
  | accept orderID providerID now =>
    cases hg : db.getByID orderID with
    | none => simp [applyOp, acceptOrder, hg]
    | some o =>
      by_cases hs : o.status = OrderStatus.pending
      · simp [applyOp, acceptOrder, hg, hs, okB] at h
      · simp [applyOp, acceptOrder, hg, hs]
  | onTheWay orderID providerID =>
    cases hg : db.getByID orderID with
    | none => simp [applyOp, updateToOnTheWay, hg]
    | some o =>
      by_cases hs : o.status = OrderStatus.accepted
      · by_cases ha : o.serviceProviderID = none ∨ o.serviceProviderID ≠ some providerID
        · simp [applyOp, updateToOnTheWay, hg, hs, ha]
        · simp [applyOp, updateToOnTheWay, hg, hs, ha, okB] at h
      · simp [applyOp, updateToOnTheWay, hg, hs]
  | arrived orderID providerID now =>
    cases hg : db.getByID orderID with
    | none => simp [applyOp, updateToArrived, hg]
    | some o =>
      by_cases hs : o.status = OrderStatus.onTheWay
      · by_cases ha : o.serviceProviderID = none ∨ o.serviceProviderID ≠ some providerID
        · simp [applyOp, updateToArrived, hg, hs, ha]
        · simp [applyOp, updateToArrived, hg, hs, ha, okB] at h
      · simp [applyOp, updateToArrived, hg, hs]
  | cancel orderID cancelledBy reason now =>
    cases hg : db.getByID orderID with
    | none => simp [applyOp, cancelOrder, hg]
    | some o =>
      by_cases hs : o.status = OrderStatus.completed ∨ o.status = OrderStatus.cancelled
      · simp [applyOp, cancelOrder, hg, hs]
      · by_cases ha : o.clientID ≠ cancelledBy ∧
            (o.serviceProviderID = none ∨ o.serviceProviderID ≠ some cancelledBy)
        · simp [applyOp, cancelOrder, hg, hs, ha]
        · simp [applyOp, cancelOrder, hg, hs, ha, okB] at h

/-- C8 witness: provider 9's late accept of the ARRIVED order 1 is
    rejected and the store is untouched. -/
theorem rejected_op_leaves_store_unchanged_witness :
    okB (applyOp arrivedDB (OrderOp.accept 1 9 5)).2 = false
  ∧ (applyOp arrivedDB (OrderOp.accept 1 9 5)).1 = arrivedDB :=
  ⟨by decide,
   rejected_op_leaves_store_unchanged arrivedDB (OrderOp.accept 1 9 5) (by decide)⟩

/-- A concrete create-order request from client 10. -/
def exReq : CreateOrderRequest :=
  { clientID := 10, description := "fix sink", serviceLatitude := 0,
    serviceLongitude := 0, serviceAddress := "addr", requestedTime := 1 }

/-- C10: `CreateOrder` inserts the row with the zero-value broadcast
    timestamp; the real broadcast time `now` is placed only on the
    returned in-memory order after the insert and never written back, so
    whenever `now` is not the zero time the returned order's broadcast
    time differs from the persisted row's. -/
theorem createOrder_broadcast_time (db : OrderDB) (req : CreateOrderRequest)
    (oid : Uuid) (num : String) (now : Time)
    (hfresh : ∀ o ∈ db.orders, o.id ≠ oid) (hnz : now ≠ timeZero) :
    ∃ ret row,
      (createOrder db req oid num now).2 = Except.ok ret
    ∧ ret.broadcastTime = some now
    ∧ ((createOrder db req oid num now).1).getByID oid = some row
    ∧ row.broadcastTime = some timeZero
    ∧ row.broadcastTime ≠ ret.broadcastTime := by
  have hrow : ((createOrder db req oid num now).1).getByID oid =
      some { id := oid, orderNumber := num, clientID := req.clientID,
             serviceProviderID := none, status := .pending,
             description := req.description,
             serviceLatitude := req.serviceLatitude,
             serviceLongitude := req.serviceLongitude,
             serviceAddress := req.serviceAddress,
             requestedTime := req.requestedTime, broadcastTime := some timeZero,
             acceptedTime := none, arrivedTime := none, startedTime := none,
             completedTime := none, cancelledTime := none, durationMinutes := 0,
             baseAmount := 0, serviceFee := 0, totalAmount := 0,
             cancellationReason := "", cancelledBy := none } := by
    show (db.createOrderRow _).getByID oid = _
    unfold OrderDB.createOrderRow OrderDB.getByID
    rw [find?_append_none]
    · rw [List.find?_cons_of_pos]
      simp
    · exact List.find?_eq_none.mpr (fun x hx => by simpa using hfresh x hx)
  refine ⟨_, _, rfl, rfl, hrow, rfl, ?_⟩
  simp only [ne_eq, Option.some.injEq]
  exact fun hc => hnz hc.symm

/-- C10 witness: creating an order in the empty store at time 9. -/
theorem createOrder_broadcast_time_witness :
    ∃ ret row,
      (createOrder ⟨[], []⟩ exReq 5 "ORD-5" 9).2 = Except.ok ret
    ∧ ret.broadcastTime = some 9
    ∧ ((createOrder ⟨[], []⟩ exReq 5 "ORD-5" 9).1).getByID 5 = some row
    ∧ row.broadcastTime = some timeZero
    ∧ row.broadcastTime ≠ ret.broadcastTime :=
  createOrder_broadcast_time ⟨[], []⟩ exReq 5 "ORD-5" 9
    (by decide) (by decide)

/-- Statuses an order can hold after (and including) acceptance. -/
def OrderStatus.postAcceptance : OrderStatus → Bool
  | .pending => false
  | _ => true

/-- C4 (amended): for an order in any post-acceptance state whose
    assigned provider is `pid`, a status-advance call by any other caller
    always fails — but the error is "unauthorized" exactly when the order
    sits in the operation's expected predecessor state (ACCEPTED for
    on-the-way, ON_THE_WAY for arrived); in every other post-acceptance
    state the status check fires first and the invalid-state error is
    returned instead. -/
theorem advance_by_non_assigned_caller (db : OrderDB) (orderID caller pid : Uuid)
    (now : Time) (o : Order)
    (hget : db.getByID orderID = some o)
    (hpost : o.status.postAcceptance = true)
    (hprov : o.serviceProviderID = some pid)
    (hne : caller ≠ pid) :
    (okB (updateToOnTheWay db orderID caller).2 = false
     ∧ ((updateToOnTheWay db orderID caller).2 =
          Except.error "unauthorized to update this order"
        ↔ o.status = OrderStatus.accepted))
  ∧ (okB (updateToArrived db orderID caller now).2 = false
     ∧ ((updateToArrived db orderID caller now).2 =
          Except.error "unauthorized to update this order"
        ↔ o.status = OrderStatus.onTheWay)) := by
  have hne' : pid ≠ caller := Ne.symm hne
  have hs1 : ("order is not in accepted status" : String) ≠
      "unauthorized to update this order" := by decide
  have hs2 : ("order is not on the way" : String) ≠
      "unauthorized to update this order" := by decide
  cases ho : o.status with
  | pending => rw [ho] at hpost; cases hpost
  | accepted =>
    refine ⟨⟨?_, ?_⟩, ?_, ?_⟩ <;>
      simp [updateToOnTheWay, updateToArrived, hget, ho, hprov, hne', okB, hs1, hs2]
  | onTheWay =>
    refine ⟨⟨?_, ?_⟩, ?_, ?_⟩ <;>
      simp [updateToOnTheWay, updateToArrived, hget, ho, hprov, hne', okB, hs1, hs2]
  | arrived =>
    refine ⟨⟨?_, ?_⟩, ?_, ?_⟩ <;>
      simp [updateToOnTheWay, updateToArrived, hget, ho, hprov, hne', okB, hs1, hs2]
  | inProgress =>
    refine ⟨⟨?_, ?_⟩, ?_, ?_⟩ <;>
      simp [updateToOnTheWay, updateToArrived, hget, ho, hprov, hne', okB, hs1, hs2]
  | completed =>
    refine ⟨⟨?_, ?_⟩, ?_, ?_⟩ <;>
      simp [updateToOnTheWay, updateToArrived, hget, ho, hprov, hne', okB, hs1, hs2]
  | cancelled =>
    refine ⟨⟨?_, ?_⟩, ?_, ?_⟩ <;>
      simp [updateToOnTheWay, updateToArrived, hget, ho, hprov, hne', okB, hs1, hs2]

/-- C4 witness: caller 9 against order 1 (ARRIVED, provider 7): both
    advance calls fail and neither yields the unauthorized error. -/
theorem advance_by_non_assigned_caller_witness :
    (okB (updateToOnTheWay arrivedDB 1 9).2 = false
     ∧ ((updateToOnTheWay arrivedDB 1 9).2 =
          Except.error "unauthorized to update this order"
        ↔ arrivedOrder.status = OrderStatus.accepted))
  ∧ (okB (updateToArrived arrivedDB 1 9 5).2 = false
     ∧ ((updateToArrived arrivedDB 1 9 5).2 =
          Except.error "unauthorized to update this order"
        ↔ arrivedOrder.status = OrderStatus.onTheWay)) :=
  advance_by_non_assigned_caller arrivedDB 1 9 7 5 arrivedOrder
    (by decide) (by decide) (by decide) (by decide)

theorem find?_removeKey (reg : List (String × List Conn)) (k : String) :
    (removeKey reg k).find? (fun e => e.1 = k) = none := by
  unfold removeKey
  refine List.find?_eq_none.mpr ?_
  intro x hx
  have := (List.mem_filter.mp hx).2
  simpa using this

theorem find?_setConns_self (reg : List (String × List Conn)) (k : String)
    (cs : List Conn) :
    (setConns reg k cs).find? (fun e => e.1 = k) = some (k, cs) := by
  unfold setConns
  by_cases hany : reg.any (fun e => e.1 = k) = true
  · rw [if_pos hany]
    induction reg with
    | nil => cases hany
    | cons a as ih =>
      by_cases ha : a.1 = k
      · simp only [List.map_cons, if_pos ha]
        rw [List.find?_cons_of_pos]
        simp
      · simp only [List.map_cons, if_neg ha]
        rw [List.find?_cons_of_neg]
        · apply ih
          rw [List.any_cons] at hany
          simpa [ha] using hany
        · simpa using ha
  · rw [if_neg hany]
    rw [find?_append_none]
    · rw [List.find?_cons_of_pos]
      simp
    · refine List.find?_eq_none.mpr ?_
      intro x hx
      intro hpx
      apply hany
      exact List.any_eq_true.mpr ⟨x, hx, hpx⟩

/-- C9: delivering the same connection to the hub's unregister operation a
    second (or any later) time is a no-op: the membership check guards the
    removal and the `close(client.send)`, so the registry is unchanged and
    the channel is not closed again. -/
theorem hubUnregister_idempotent (h : HubState) (c : Conn)
    (hnodup : ∀ e ∈ h.clients, e.2.Nodup) :
    hubUnregister (hubUnregister h c) c = hubUnregister h c := by
  cases hf : h.clients.find? (fun e => e.1 = c.orderID) with
  | none =>
    have h1 : hubUnregister h c = h := by simp [hubUnregister, hf]
    rw [h1, h1]
  | some e =>
    by_cases hc : c ∈ e.2
    · by_cases hemp : e.2.erase c = []
      · have hinner : hubUnregister h c =
            { clients := removeKey h.clients c.orderID
              queues := h.queues
              closed := h.closed ++ [c.id] } := by
          simp [hubUnregister, hf, hc, hemp]
        rw [hinner]
        simp [hubUnregister, find?_removeKey]
      · have hinner : hubUnregister h c =
            { clients := setConns h.clients c.orderID (e.2.erase c)
              queues := h.queues
              closed := h.closed ++ [c.id] } := by
          simp [hubUnregister, hf, hc, hemp]
        rw [hinner]
        have hnm : c ∉ e.2.erase c :=
          List.Nodup.not_mem_erase (hnodup e (List.mem_of_find?_eq_some hf))
        simp [hubUnregister, find?_setConns_self, hnm]
    · have h1 : hubUnregister h c = h := by
        simp [hubUnregister, hf, hc]
      rw [h1, h1]

/-- Connection 1 subscribed to order key "o1" with channel capacity 1. -/
def connA : Conn := { id := 1, orderID := "o1", cap := 1 }

/-- Connection 2 subscribed to order key "o1" with channel capacity 1. -/
def connB : Conn := { id := 2, orderID := "o1", cap := 1 }

/-- Connection 3 subscribed to order key "o2". -/
def connC : Conn := { id := 3, orderID := "o2", cap := 1 }

/-- A hub with two connections on key "o1" (one with a full queue) and one
    on key "o2". -/
def hubA : HubState :=
  { clients := [("o1", [connA, connB]), ("o2", [connC])]
    queues := [(1, []), (2, ["old"]), (3, [])]
    closed := [] }

/-- C9 witness: double unregistration of connection 1 on the concrete hub. -/
theorem hubUnregister_idempotent_witness :
    hubUnregister (hubUnregister hubA connA) connA = hubUnregister hubA connA :=
  hubUnregister_idempotent hubA connA (by decide)

theorem key_inj_of_nodup {α : Type} (key : α → Nat) {l : List α}
    (hnd : (l.map key).Nodup) {t0 : α} (ht0 : t0 ∈ l) :
    ∀ r ∈ l, key r = key t0 → r = t0 := by
  induction l with
  | nil => cases ht0
  | cons a as ih =>
    rw [List.map_cons, List.nodup_cons] at hnd
    intro r hr hk
    rcases List.mem_cons.mp hr with hra | hras
    · rcases List.mem_cons.mp ht0 with ht0a | ht0as
      · rw [hra, ht0a]
      · exfalso
        apply hnd.1
        rw [hra] at hk
        rw [hk]
        exact List.mem_map.mpr ⟨t0, ht0as, rfl⟩
    · rcases List.mem_cons.mp ht0 with ht0a | ht0as
      · exfalso
        apply hnd.1
        rw [ht0a] at hk
        rw [← hk]
        exact List.mem_map.mpr ⟨r, hras, rfl⟩
      · exact ih hnd.2 ht0as r hras hk

theorem find?_map_update_found {α : Type} (p : α → Bool) (key : α → Nat)
    (l : List α) (t0 x : α)
    (hfind : l.find? p = some t0)
    (hkeyinj : ∀ r ∈ l, key r = key t0 → r = t0)
    (hpx : p x = true) :
    (l.map (fun r => if key r = key t0 then x else r)).find? p = some x := by
  induction l with
  | nil => cases hfind
  | cons a as ih =>
    by_cases hpa : p a = true
    · rw [List.find?_cons_of_pos _ hpa] at hfind
      have ha : a = t0 := by injection hfind
      simp only [List.map_cons, ha, eq_self_iff_true, ite_true]
      rw [List.find?_cons_of_pos _ hpx]
    · rw [List.find?_cons_of_neg _ hpa] at hfind
      have ht0as : t0 ∈ as := List.mem_of_find?_eq_some hfind
      have hka : ¬ key a = key t0 := by
        intro hk
        have := hkeyinj a (List.mem_cons_self a as) hk
        rw [this] at hpa
        exact hpa (List.find?_some hfind)
      simp only [List.map_cons, if_neg hka]
      rw [List.find?_cons_of_neg _ hpa]
      exact ih hfind (fun r hr hk => hkeyinj r (List.mem_cons_of_mem a hr) hk)

/-- C7: every `UpdateLocation` call — whether or not a tracking row
    already existed — appends exactly one history row carrying the
    report's fields, and afterwards the tracking row of the order holds
    exactly the report's latitude/longitude; the tracking table's key
    uniqueness is preserved, so the property holds along any sequence of
    reports. -/
theorem updateLocation_appends_history_and_tracks_latest
    (calcDist : Rat → Rat → Rat → Rat → Rat) (db : LocationDB)
    (req : UpdateLocationRequest) (now : Time) (tid hid : Uuid)
    (hids : (db.trackings.map OrderTracking.id).Nodup)
    (htid : tid ∉ db.trackings.map OrderTracking.id) :
    ((updateLocation calcDist db req now tid hid).1).histories =
      db.histories ++
        [{ id := hid, orderID := req.orderID,
           serviceProviderID := req.serviceProviderID,
           latitude := req.latitude, longitude := req.longitude,
           speedKmh := req.speedKmh, accuracyMeters := req.accuracyMeters,
           headingDegrees := req.headingDegrees, recordedAt := now }]
  ∧ ((updateLocation calcDist db req now tid hid).1).histories.length =
      db.histories.length + 1
  ∧ (∃ t, ((updateLocation calcDist db req now tid hid).1).getTrackingByOrderID
        req.orderID = some t
      ∧ t.currentLatitude = req.latitude ∧ t.currentLongitude = req.longitude)
  ∧ (((updateLocation calcDist db req now tid hid).1).trackings.map
      OrderTracking.id).Nodup := by
  cases hfind : db.getTrackingByOrderID req.orderID with
  | none =>
    have htr : ((updateLocation calcDist db req now tid hid).1).getTrackingByOrderID
        req.orderID = some
          { id := tid, orderID := req.orderID,
            serviceProviderID := req.serviceProviderID,
            currentLatitude := req.latitude, currentLongitude := req.longitude,
            distanceKm := 0, estimatedArrivalMinutes := 0,
            trackingStatus := "ACTIVE", lastUpdated := now } := by
      simp only [updateLocation, hfind]
      show (((db.createTracking _).createLocationHistory _)).getTrackingByOrderID
        req.orderID = _
      unfold LocationDB.createLocationHistory LocationDB.createTracking
        LocationDB.getTrackingByOrderID
      simp only
      rw [find?_append_none]
      · rw [List.find?_cons_of_pos]
        simp
      · exact hfind
    refine ⟨?_, ?_, ⟨_, htr, rfl, rfl⟩, ?_⟩
    · simp [updateLocation, hfind, LocationDB.createTracking,
        LocationDB.createLocationHistory]
    · simp [updateLocation, hfind, LocationDB.createTracking,
        LocationDB.createLocationHistory]
    · simp only [updateLocation, hfind, LocationDB.createTracking,
        LocationDB.createLocationHistory, List.map_append]
      rw [List.nodup_append]
      refine ⟨hids, by simp, ?_⟩
      intro x hx
      simp only [List.map_cons, List.map_nil, List.mem_singleton]
      intro hc
      rw [hc] at hx
      exact htid hx
  | some t =>
    have hmem : t ∈ db.trackings := List.mem_of_find?_eq_some hfind
    have hmapeq : ((updateLocation calcDist db req now tid hid).1).trackings =
        db.trackings.map (fun r => if r.id = t.id then
          { t with
            currentLatitude := req.latitude
            currentLongitude := req.longitude
            lastUpdated := now
            distanceKm := calcDist req.latitude req.longitude 0 0
            estimatedArrivalMinutes :=
              truncToInt (calcDist req.latitude req.longitude 0 0 * 2) }
          else r) := by
      simp only [updateLocation, hfind, LocationDB.createLocationHistory]
      unfold LocationDB.updateTracking
      rw [if_pos]
      exact List.any_eq_true.mpr ⟨t, hmem, by simp⟩
    have htr : ((updateLocation calcDist db req now tid hid).1).getTrackingByOrderID
        req.orderID = some
          { t with
            currentLatitude := req.latitude
            currentLongitude := req.longitude
            lastUpdated := now
            distanceKm := calcDist req.latitude req.longitude 0 0
            estimatedArrivalMinutes :=
              truncToInt (calcDist req.latitude req.longitude 0 0 * 2) } := by
      unfold LocationDB.getTrackingByOrderID
      rw [hmapeq]
      exact find?_map_update_found _ OrderTracking.id db.trackings t _ hfind
        (key_inj_of_nodup OrderTracking.id hids hmem)
        (by simpa using List.find?_some hfind)
    refine ⟨?_, ?_, ⟨_, htr, rfl, rfl⟩, ?_⟩
    · simp [updateLocation, hfind, LocationDB.updateTracking,
        LocationDB.createLocationHistory]
      split <;> rfl
    · simp [updateLocation, hfind, LocationDB.updateTracking,
        LocationDB.createLocationHistory]
      split <;> simp
    · have hsame : (((updateLocation calcDist db req now tid hid).1).trackings.map
          OrderTracking.id) = db.trackings.map OrderTracking.id := by
        rw [hmapeq, List.map_map]
        apply List.map_congr_left
        intro r hr
        by_cases hcr : r.id = t.id
        · simp [Function.comp, hcr]
        · simp [Function.comp, hcr]
      rw [hsame]
      exact hids

/-- A concrete position report for order 1 by provider 7. -/
def exLocReq : UpdateLocationRequest :=
  { orderID := 1, serviceProviderID := 7, latitude := 1, longitude := 2,
    speedKmh := 0, accuracyMeters := 5, headingDegrees := 90 }

/-- C7 witness: the first report against an empty location store. -/
theorem updateLocation_appends_history_and_tracks_latest_witness :
    ((updateLocation (fun _ _ _ _ => 0) ⟨[], []⟩ exLocReq 4 20 30).1).histories =
      ([] : List LocationHistory) ++
        [{ id := 30, orderID := exLocReq.orderID,
           serviceProviderID := exLocReq.serviceProviderID,
           latitude := exLocReq.latitude, longitude := exLocReq.longitude,
           speedKmh := exLocReq.speedKmh,
           accuracyMeters := exLocReq.accuracyMeters,
           headingDegrees := exLocReq.headingDegrees, recordedAt := 4 }]
  ∧ ((updateLocation (fun _ _ _ _ => 0) ⟨[], []⟩ exLocReq 4 20 30).1).histories.length =
      ([] : List LocationHistory).length + 1
  ∧ (∃ t, ((updateLocation (fun _ _ _ _ => 0) ⟨[], []⟩ exLocReq 4 20 30).1).getTrackingByOrderID
        exLocReq.orderID = some t
      ∧ t.currentLatitude = exLocReq.latitude
      ∧ t.currentLongitude = exLocReq.longitude)
  ∧ (((updateLocation (fun _ _ _ _ => 0) ⟨[], []⟩ exLocReq 4 20 30).1).trackings.map
      OrderTracking.id).Nodup :=
  updateLocation_appends_history_and_tracks_latest (fun _ _ _ _ => 0) ⟨[], []⟩
    exLocReq 4 20 30 (by decide) (by decide)

theorem find?_append_some {α : Type} (p : α → Bool) (l1 l2 : List α) (a : α)
    (h : l1.find? p = some a) : (l1 ++ l2).find? p = some a := by
  induction l1 with
  | nil => cases h
  | cons x xs ih =>
    by_cases hpx : p x = true
    · rw [List.find?_cons_of_pos _ hpx] at h
      rw [List.cons_append, List.find?_cons_of_pos _ hpx]
      exact h
    · rw [List.find?_cons_of_neg _ hpx] at h
      rw [List.cons_append, List.find?_cons_of_neg _ hpx]
      exact ih h

theorem find?_map_of_pred_preserved {α : Type} (p : α → Bool) (f : α → α)
    (l : List α) (hf : ∀ x ∈ l, (p x = true → f x = x) ∧ p (f x) = p x) :
    (l.map f).find? p = l.find? p := by
  induction l with
  | nil => rfl
  | cons a as ih =>
    rw [List.map_cons]
    by_cases hpa : p a = true
    · rw [(hf a (List.mem_cons_self a as)).1 hpa]
      rw [List.find?_cons_of_pos _ hpa, List.find?_cons_of_pos _ hpa]
    · have hfa : ¬ p (f a) = true := by
        rw [(hf a (List.mem_cons_self a as)).2]
        exact hpa
      rw [List.find?_cons_of_neg _ hfa, List.find?_cons_of_neg _ hpa]
      exact ih (fun x hx => hf x (List.mem_cons_of_mem a hx))

theorem find?_setQueue_self (qs : List (Nat × List String)) (cid : Nat)
    (q : List String) :
    (setQueue qs cid q).find? (fun e => e.1 = cid) = some (cid, q) := by
  unfold setQueue
  by_cases hany : qs.any (fun e => e.1 = cid) = true
  · rw [if_pos hany]
    induction qs with
    | nil => cases hany
    | cons a as ih =>
      by_cases ha : a.1 = cid
      · simp only [List.map_cons, if_pos ha]
        rw [List.find?_cons_of_pos]
        simp
      · simp only [List.map_cons, if_neg ha]
        rw [List.find?_cons_of_neg]
        · apply ih
          rw [List.any_cons] at hany
          simpa [ha] using hany
        · simpa using ha
  · rw [if_neg hany]
    rw [find?_append_none]
    · rw [List.find?_cons_of_pos]
      simp
    · refine List.find?_eq_none.mpr ?_
      intro x hx hpx
      exact hany (List.any_eq_true.mpr ⟨x, hx, hpx⟩)

theorem find?_setQueue_other (qs : List (Nat × List String)) (cid : Nat)
    (q : List String) (cid' : Nat) (hne : cid' ≠ cid) :
    (setQueue qs cid q).find? (fun e => e.1 = cid') =
      qs.find? (fun e => e.1 = cid') := by
  unfold setQueue
  by_cases hany : qs.any (fun e => e.1 = cid) = true
  · rw [if_pos hany]
    apply find?_map_of_pred_preserved
    intro x _
    refine ⟨?_, ?_⟩
    · intro hpx
      have hx' : x.1 = cid' := by simpa using hpx
      have hxcid : ¬ x.1 = cid := by rw [hx']; exact hne
      rw [if_neg hxcid]
    · by_cases hxk : x.1 = cid
      · simp [hxk]
      · rw [if_neg hxk]
  · rw [if_neg hany]
    cases hf : qs.find? (fun e => e.1 = cid') with
    | none =>
      rw [find?_append_none _ _ _ hf]
      rw [List.find?_cons_of_neg]
      · rfl
      · simpa using fun hc => hne hc.symm
    | some a => exact find?_append_some _ _ _ _ hf

theorem find?_setConns_other (reg : List (String × List Conn)) (k : String)
    (cs : List Conn) (k' : String) (hne : k' ≠ k) :
    (setConns reg k cs).find? (fun e => e.1 = k') =
      reg.find? (fun e => e.1 = k') := by
  unfold setConns
  by_cases hany : reg.any (fun e => e.1 = k) = true
  · rw [if_pos hany]
    apply find?_map_of_pred_preserved
    intro x _
    refine ⟨?_, ?_⟩
    · intro hpx
      have hx' : x.1 = k' := by simpa using hpx
      have hxcid : ¬ x.1 = k := by rw [hx']; exact hne
      rw [if_neg hxcid]
    · by_cases hxk : x.1 = k
      · simp [hxk]
      · rw [if_neg hxk]
  · rw [if_neg hany]
    cases hf : reg.find? (fun e => e.1 = k') with
    | none =>
      rw [find?_append_none _ _ _ hf]
      rw [List.find?_cons_of_neg]
      · rfl
      · simpa using fun hc => hne hc.symm
    | some a => exact find?_append_some _ _ _ _ hf

theorem lookupConns_setConns_self (reg : List (String × List Conn)) (k : String)
    (cs : List Conn) : lookupConns (setConns reg k cs) k = cs := by
  unfold lookupConns
  rw [find?_setConns_self]

theorem lookupConns_setConns_other (reg : List (String × List Conn)) (k : String)
    (cs : List Conn) (k' : String) (hne : k' ≠ k) :
    lookupConns (setConns reg k cs) k' = lookupConns reg k' := by
  unfold lookupConns
  rw [find?_setConns_other _ _ _ _ hne]

theorem queueOf_setQueue_self (st : HubState) (cid : Nat) (q : List String) :
    queueOf { st with queues := setQueue st.queues cid q } cid = q := by
  unfold queueOf
  simp only
  rw [find?_setQueue_self]

theorem queueOf_setQueue_other (st : HubState) (cid : Nat) (q : List String)
    (cid' : Nat) (hne : cid' ≠ cid) :
    queueOf { st with queues := setQueue st.queues cid q } cid' =
      queueOf st cid' := by
  unfold queueOf
  simp only
  rw [find?_setQueue_other _ _ _ _ hne]

theorem mem_lookupConns {reg : List (String × List Conn)} {k : String} {c : Conn}
    (hc : c ∈ lookupConns reg k) : ∃ e ∈ reg, e.1 = k ∧ c ∈ e.2 := by
  unfold lookupConns at hc
  cases hf : reg.find? (fun e => e.1 = k) with
  | none => rw [hf] at hc; cases hc
  | some e =>
    rw [hf] at hc
    exact ⟨e, List.mem_of_find?_eq_some hf, by simpa using List.find?_some hf, hc⟩

theorem hubSendAttempt_room (key frame : String) (st : HubState) (c : Conn)
    (h : (queueOf st c.id).length < c.cap) :
    hubSendAttempt key frame st c =
      { st with queues := setQueue st.queues c.id (queueOf st c.id ++ [frame]) } := by
  unfold hubSendAttempt
  rw [if_pos h]

theorem hubSendAttempt_full (key frame : String) (st : HubState) (c : Conn)
    (h : ¬ (queueOf st c.id).length < c.cap) :
    hubSendAttempt key frame st c =
      { clients := setConns st.clients key ((lookupConns st.clients key).erase c)
        queues := st.queues
        closed := st.closed ++ [c.id] } := by
  unfold hubSendAttempt
  rw [if_neg h]

theorem hubFold_spec (key frame : String) :
    ∀ (l : List Conn) (st : HubState),
      (l.map Conn.id).Nodup →
      (∀ c ∈ l, c ∈ lookupConns st.clients key) →
      (lookupConns st.clients key).Nodup →
      (∀ c ∈ l, (queueOf st c.id).length < c.cap →
          queueOf (l.foldl (hubSendAttempt key frame) st) c.id =
            queueOf st c.id ++ [frame]
        ∧ c ∈ lookupConns (l.foldl (hubSendAttempt key frame) st).clients key)
    ∧ (∀ c ∈ l, ¬ (queueOf st c.id).length < c.cap →
          c ∉ lookupConns (l.foldl (hubSendAttempt key frame) st).clients key
        ∧ c.id ∈ (l.foldl (hubSendAttempt key frame) st).closed)
    ∧ (∀ k', k' ≠ key →
        lookupConns (l.foldl (hubSendAttempt key frame) st).clients k' =
          lookupConns st.clients k')
    ∧ (∀ cid, cid ∉ l.map Conn.id →
        queueOf (l.foldl (hubSendAttempt key frame) st) cid = queueOf st cid)
    ∧ (∀ x ∈ st.closed, x ∈ (l.foldl (hubSendAttempt key frame) st).closed)
    ∧ (∀ c', c'.id ∉ l.map Conn.id →
        (c' ∈ lookupConns (l.foldl (hubSendAttempt key frame) st).clients key ↔
         c' ∈ lookupConns st.clients key))
    ∧ (lookupConns (l.foldl (hubSendAttempt key frame) st).clients key).Nodup := by
  intro l
  induction l with
  | nil =>
    intro st _ _ h3
    exact ⟨fun c hc => absurd hc (List.not_mem_nil c),
           fun c hc => absurd hc (List.not_mem_nil c),
           fun _ _ => rfl, fun _ _ => rfl, fun _ hx => hx,
           fun _ _ => Iff.rfl, h3⟩
  | cons c cs ih =>
    intro st h1 h2 h3
    rw [List.map_cons, List.nodup_cons] at h1
    have hcid : c.id ∉ cs.map Conn.id := h1.1
    have hnodcs : (cs.map Conn.id).Nodup := h1.2
    have hne0 : ∀ c0 ∈ cs, c0.id ≠ c.id :=
      fun c0 h0 heq => hcid (List.mem_map.mpr ⟨c0, h0, heq⟩)
    have hcmem : c ∈ lookupConns st.clients key := h2 c (List.mem_cons_self c cs)
    by_cases hroom : (queueOf st c.id).length < c.cap
    · have hstep := hubSendAttempt_room key frame st c hroom
      rw [List.foldl_cons, hstep]
      set st' : HubState :=
        { st with queues := setQueue st.queues c.id (queueOf st c.id ++ [frame]) }
        with hst'
      have hqc : queueOf st' c.id = queueOf st c.id ++ [frame] :=
        queueOf_setQueue_self st c.id _
      have hqo : ∀ cid, cid ≠ c.id → queueOf st' cid = queueOf st cid :=
        fun cid hne => queueOf_setQueue_other st c.id _ cid hne
      have hcl : st'.clients = st.clients := rfl
      have hclo : st'.closed = st.closed := rfl
      obtain ⟨i1, i2, i3, i4, i5, i6, i7⟩ := ih st' hnodcs
        (fun c0 h0 => h2 c0 (List.mem_cons_of_mem c h0)) h3
      refine ⟨?_, ?_, ?_, ?_, ?_, ?_, i7⟩
      · intro c0 hc0 hroom0
        rcases List.mem_cons.mp hc0 with rfl | h0
        · refine ⟨?_, ?_⟩
          · rw [i4 c0.id hcid, hqc]
          · exact (i6 c0 hcid).mpr hcmem
        · have hq0 : queueOf st' c0.id = queueOf st c0.id := hqo c0.id (hne0 c0 h0)
          have := i1 c0 h0 (by rw [hq0]; exact hroom0)
          rw [hq0] at this
          exact this
      · intro c0 hc0 hroom0
        rcases List.mem_cons.mp hc0 with rfl | h0
        · exact absurd hroom hroom0
        · have hq0 : queueOf st' c0.id = queueOf st c0.id := hqo c0.id (hne0 c0 h0)
          exact i2 c0 h0 (by rw [hq0]; exact hroom0)
      · intro k' hk'
        rw [i3 k' hk']
      · intro cid hcid'
        simp only [List.map_cons, List.mem_cons] at hcid'
        push_neg at hcid'
        rw [i4 cid hcid'.2, hqo cid hcid'.1]
      · intro x hx
        exact i5 x (by rw [hclo]; exact hx)
      · intro c' hc'
        simp only [List.map_cons, List.mem_cons] at hc'
        push_neg at hc'
        exact i6 c' hc'.2
    · have hstep := hubSendAttempt_full key frame st c hroom
      rw [List.foldl_cons, hstep]
      set st' : HubState :=
        { clients := setConns st.clients key ((lookupConns st.clients key).erase c)
          queues := st.queues
          closed := st.closed ++ [c.id] } with hst'
      have hlk : lookupConns st'.clients key = (lookupConns st.clients key).erase c :=
        lookupConns_setConns_self st.clients key _
      have hlo : ∀ k', k' ≠ key →
          lookupConns st'.clients k' = lookupConns st.clients k' :=
        fun k' hne => lookupConns_setConns_other st.clients key _ k' hne
      have hq : ∀ cid, queueOf st' cid = queueOf st cid := fun _ => rfl
      obtain ⟨i1, i2, i3, i4, i5, i6, i7⟩ := ih st' hnodcs
        (fun c0 h0 => by
          rw [hlk]
          exact (List.mem_erase_of_ne (by
            intro hceq
            exact hne0 c0 h0 (by rw [hceq]))).mpr
            (h2 c0 (List.mem_cons_of_mem c h0)))
        (by rw [hlk]; exact h3.erase c)
      refine ⟨?_, ?_, ?_, ?_, ?_, ?_, i7⟩
      · intro c0 hc0 hroom0
        rcases List.mem_cons.mp hc0 with rfl | h0
        · exact absurd hroom0 hroom
        · have := i1 c0 h0 (by rw [hq c0.id]; exact hroom0)
          rw [hq c0.id] at this
          exact this
      · intro c0 hc0 hroom0
        rcases List.mem_cons.mp hc0 with rfl | h0
        · refine ⟨?_, ?_⟩
          · intro hmem
            have := (i6 c0 hcid).mp hmem
            rw [hlk] at this
            exact (List.Nodup.not_mem_erase h3) this
          · exact i5 c0.id (by
              show c0.id ∈ st.closed ++ [c0.id]
              exact List.mem_append_right _ (List.mem_singleton_self c0.id))
        · exact i2 c0 h0 (by rw [hq c0.id]; exact hroom0)
      · intro k' hk'
        rw [i3 k' hk', hlo k' hk']
      · intro cid hcid'
        simp only [List.map_cons, List.mem_cons] at hcid'
        push_neg at hcid'
        rw [i4 cid hcid'.2, hq cid]
      · intro x hx
        exact i5 x (List.mem_append_left _ hx)
      · intro c' hc'
        simp only [List.map_cons, List.mem_cons] at hc'
        push_neg at hc'
        rw [i6 c' hc'.2, hlk]
        exact List.mem_erase_of_ne (by
          intro hceq
          exact hc'.1 (by rw [hceq]))

theorem lookupConns_cases (reg : List (String × List Conn)) (k : String) :
    lookupConns reg k = [] ∨
      ∃ e ∈ reg, e.1 = k ∧ lookupConns reg k = e.2 := by
  unfold lookupConns
  cases hf : reg.find? (fun e => e.1 = k) with
  | none => exact Or.inl rfl
  | some e =>
    exact Or.inr ⟨e, List.mem_of_find?_eq_some hf,
      by simpa using List.find?_some hf, rfl⟩

/-- C6: broadcasting a frame under key `key`: with no connection
    registered under the key the hub state is untouched; every connection
    registered under the key whose outbound channel has room receives the
    frame at the end of its queue and stays registered; every connection
    under the key whose channel is full is removed from the registry and
    its channel closed; connections registered under any other key receive
    nothing and their registry entries are untouched. -/
theorem hubBroadcast_delivery (h : HubState) (key frame : String) (hwf : HubWF h) :
    (lookupConns h.clients key = [] → hubBroadcast h key frame = h)
  ∧ (∀ c ∈ lookupConns h.clients key, (queueOf h c.id).length < c.cap →
       queueOf (hubBroadcast h key frame) c.id = queueOf h c.id ++ [frame]
     ∧ c ∈ lookupConns (hubBroadcast h key frame).clients key)
  ∧ (∀ c ∈ lookupConns h.clients key, ¬ (queueOf h c.id).length < c.cap →
       c ∉ lookupConns (hubBroadcast h key frame).clients key
     ∧ c.id ∈ (hubBroadcast h key frame).closed)
  ∧ (∀ k', k' ≠ key → ∀ c' ∈ lookupConns h.clients k',
       queueOf (hubBroadcast h key frame) c'.id = queueOf h c'.id)
  ∧ (∀ k', k' ≠ key →
       lookupConns (hubBroadcast h key frame).clients k' =
         lookupConns h.clients k') := by
  obtain ⟨hwf1, hwf2, hwf3⟩ := hwf
  have hlkNodup : (lookupConns h.clients key).Nodup := by
    rcases lookupConns_cases h.clients key with hemp | ⟨e, he, hek, heq⟩
    · rw [hemp]; exact List.nodup_nil
    · rw [heq]; exact hwf1 e he
  have hidsNodup : ((lookupConns h.clients key).map Conn.id).Nodup := by
    rcases lookupConns_cases h.clients key with hemp | ⟨e, he, hek, heq⟩
    · rw [hemp]; exact List.nodup_nil
    · rw [heq]
      refine List.Nodup.map_on ?_ (hwf1 e he)
      intro x hx y hy hxy
      exact (hwf3 e he e he x hx y hy hxy).1
  obtain ⟨i1, i2, i3, i4, i5, i6, i7⟩ :=
    hubFold_spec key frame (lookupConns h.clients key) h hidsNodup
      (fun c hc => hc) hlkNodup
  refine ⟨?_, i1, i2, ?_, i3⟩
  · intro hemp
    show (lookupConns h.clients key).foldl (hubSendAttempt key frame) h = h
    rw [hemp]
    rfl
  · intro k' hk' c' hc'
    apply i4
    intro hmemids
    rcases List.mem_map.mp hmemids with ⟨c0, hc0, hid⟩
    rcases mem_lookupConns hc' with ⟨e1, he1, he1k, hc'e1⟩
    rcases mem_lookupConns hc0 with ⟨e2, he2, he2k, hc0e2⟩
    have := (hwf3 e1 he1 e2 he2 c' hc'e1 c0 hc0e2 hid.symm).2
    rw [he1k, he2k] at this
    exact hk' this

/-- C6 witness: broadcasting "f" under "o1" on the concrete hub: conn 1
    (room) gets the frame and stays, conn 2 (full queue) is evicted and
    closed, conn 3 under "o2" is untouched. -/
theorem hubBroadcast_delivery_witness :
    (lookupConns hubA.clients "o1" = [] → hubBroadcast hubA "o1" "f" = hubA)
  ∧ (∀ c ∈ lookupConns hubA.clients "o1", (queueOf hubA c.id).length < c.cap →
       queueOf (hubBroadcast hubA "o1" "f") c.id = queueOf hubA c.id ++ ["f"]
     ∧ c ∈ lookupConns (hubBroadcast hubA "o1" "f").clients "o1")
  ∧ (∀ c ∈ lookupConns hubA.clients "o1", ¬ (queueOf hubA c.id).length < c.cap →
       c ∉ lookupConns (hubBroadcast hubA "o1" "f").clients "o1"
     ∧ c.id ∈ (hubBroadcast hubA "o1" "f").closed)
  ∧ (∀ k', k' ≠ "o1" → ∀ c' ∈ lookupConns hubA.clients k',
       queueOf (hubBroadcast hubA "o1" "f") c'.id = queueOf hubA c'.id)
  ∧ (∀ k', k' ≠ "o1" →
       lookupConns (hubBroadcast hubA "o1" "f").clients k' =
         lookupConns hubA.clients k') :=
  hubBroadcast_delivery hubA "o1" "f" (by decide)

theorem mem_updateOrder_orders {db : OrderDB} {o' r2 : Order}
    (h : r2 ∈ (db.updateOrder o').orders) :
    r2 = o' ∨ (r2 ∈ db.orders ∧ r2.id ≠ o'.id) := by
  unfold OrderDB.updateOrder at h
  by_cases hany : db.orders.any (fun r => r.id = o'.id) = true
  · rw [if_pos hany] at h
    simp only at h
    rcases List.mem_map.mp h with ⟨r, hr, hupd⟩
    by_cases hid : r.id = o'.id
    · rw [if_pos hid] at hupd
      exact Or.inl hupd.symm
    · rw [if_neg hid] at hupd
      exact Or.inr ⟨hupd ▸ hr, hupd ▸ hid⟩
  · rw [if_neg hany] at h
    simp only at h
    rcases List.mem_append.mp h with hr | hr
    · refine Or.inr ⟨hr, ?_⟩
      intro hid
      exact hany (List.any_eq_true.mpr ⟨r2, hr, by simpa using hid⟩)
    · exact Or.inl (List.mem_singleton.mp hr)

theorem pairs_updateOrder {db : OrderDB} {o' : Order}
    (hpairs : BroadcastPairsUnique db) :
    BroadcastPairsUnique (db.updateOrder o') := by
  intro b1 hb1 b2 hb2
  rw [updateOrder_broadcasts] at hb1 hb2
  exact hpairs b1 hb1 b2 hb2

theorem inv_updateOrder_nonpending {db : OrderDB} {o' : Order}
    (hinv : OrderInv db) (hstat : o'.status ≠ OrderStatus.pending) :
    OrderInv (db.updateOrder o') := by
  obtain ⟨h1, h2⟩ := hinv
  constructor
  · intro b1 hb1 b2 hb2
    rw [updateOrder_broadcasts] at hb1 hb2
    exact h1 b1 hb1 b2 hb2
  · intro b hb hacc o2 ho2 hid
    rw [updateOrder_broadcasts] at hb
    rcases mem_updateOrder_orders ho2 with rfl | ⟨hmem, _⟩
    · exact hstat
    · exact h2 b hb hacc o2 hmem hid

theorem createOrderRow_broadcasts (db : OrderDB) (o : Order) :
    (db.createOrderRow o).broadcasts = db.broadcasts := rfl

/-- The in-memory mutation `AcceptOrder` applies to a PENDING order. -/
def acceptedVersion (o : Order) (pid : Uuid) (now : Time) : Order :=
  { o with
    serviceProviderID := some pid
    status := .accepted
    acceptedTime := some now }

theorem acceptOrder_success_eq {db : OrderDB} {oid pid : Uuid} {now : Time}
    {o : Order} (hg : db.getByID oid = some o)
    (hs : o.status = OrderStatus.pending) :
    acceptOrder db oid pid now =
      ((db.updateOrder (acceptedVersion o pid now)).markAsAccepted oid pid,
       Except.ok (acceptedVersion o pid now)) := by
  rw [acceptOrder, hg]
  simp only [hs, ne_eq, not_true_eq_false, if_false, ite_false, if_neg]
  unfold acceptedVersion
  rfl

theorem inv_accept_success {db : OrderDB} {oid pid : Uuid} {now : Time} {o : Order}
    (hg : db.getByID oid = some o) (hs : o.status = OrderStatus.pending)
    (hpairs : BroadcastPairsUnique db) (hinv : OrderInv db) :
    OrderInv ((db.updateOrder (acceptedVersion o pid now)).markAsAccepted oid pid)
  ∧ BroadcastPairsUnique
      ((db.updateOrder (acceptedVersion o pid now)).markAsAccepted oid pid) := by
  obtain ⟨hmem, hoid⟩ := getByID_mem_id hg
  obtain ⟨h1, h2⟩ := hinv
  have hnoacc : ∀ b ∈ db.broadcasts, b.isAccepted = true → b.orderID ≠ oid := by
    intro b hb hacc heq
    exact h2 b hb hacc o hmem (by rw [hoid, heq]) hs
  have hbeq : ((db.updateOrder (acceptedVersion o pid now)).markAsAccepted
        oid pid).broadcasts =
      db.broadcasts.map (fun x =>
        if x.orderID = oid ∧ x.providerID = pid then { x with isAccepted := true }
        else x) := by
    rw [markAsAccepted_broadcasts, updateOrder_broadcasts]
  have hmoid : ∀ x : OrderBroadcast,
      (if x.orderID = oid ∧ x.providerID = pid then { x with isAccepted := true }
       else x).orderID = x.orderID := by
    intro x
    by_cases hx : x.orderID = oid ∧ x.providerID = pid
    · rw [if_pos hx]
    · rw [if_neg hx]
  have hmpid : ∀ x : OrderBroadcast,
      (if x.orderID = oid ∧ x.providerID = pid then { x with isAccepted := true }
       else x).providerID = x.providerID := by
    intro x
    by_cases hx : x.orderID = oid ∧ x.providerID = pid
    · rw [if_pos hx]
    · rw [if_neg hx]
  refine ⟨⟨?_, ?_⟩, ?_⟩
  · intro b1' hb1' b2' hb2' hacc1 hacc2 hoid12
    rw [hbeq] at hb1' hb2'
    rcases List.mem_map.mp hb1' with ⟨b1, hb1, hi1⟩
    rcases List.mem_map.mp hb2' with ⟨b2, hb2, hi2⟩
    have ho1 : b1'.orderID = b1.orderID := by rw [← hi1]; exact hmoid b1
    have ho2b : b2'.orderID = b2.orderID := by rw [← hi2]; exact hmoid b2
    by_cases hc1 : b1.orderID = oid ∧ b1.providerID = pid
    · by_cases hc2 : b2.orderID = oid ∧ b2.providerID = pid
      · have hb12 : b1 = b2 :=
          hpairs b1 hb1 b2 hb2 (hc1.1.trans hc2.1.symm) (hc1.2.trans hc2.2.symm)
        rw [← hi1, ← hi2, hb12]
      · exfalso
        rw [if_neg hc2] at hi2
        apply hnoacc b2 hb2 (by rw [hi2]; exact hacc2)
        rw [← ho2b, ← hoid12, ho1, hc1.1]
    · by_cases hc2 : b2.orderID = oid ∧ b2.providerID = pid
      · exfalso
        rw [if_neg hc1] at hi1
        apply hnoacc b1 hb1 (by rw [hi1]; exact hacc1)
        rw [← ho1, hoid12, ho2b, hc2.1]
      · rw [if_neg hc1] at hi1
        rw [if_neg hc2] at hi2
        rw [← hi1, ← hi2]
        exact h1 b1 hb1 b2 hb2 (by rw [hi1]; exact hacc1)
          (by rw [hi2]; exact hacc2) (by rw [← ho1, ← ho2b, hoid12])
  · intro b' hb' hacc' o2 ho2 hid2
    rw [hbeq] at hb'
    rcases List.mem_map.mp hb' with ⟨b, hb, hib⟩
    have hbo : b'.orderID = b.orderID := by rw [← hib]; exact hmoid b
    have ho2' : o2 ∈ (db.updateOrder (acceptedVersion o pid now)).orders := ho2
    rcases mem_updateOrder_orders ho2' with rfl | ⟨hmem2, hid2'⟩
    · intro hpend
      have hcontra : OrderStatus.accepted = OrderStatus.pending := hpend
      cases hcontra
    · by_cases hcb : b.orderID = oid ∧ b.providerID = pid
      · exfalso
        apply hid2'
        show o2.id = (acceptedVersion o pid now).id
        have : (acceptedVersion o pid now).id = o.id := rfl
        rw [this, hoid, hid2, hbo, hcb.1]
      · rw [if_neg hcb] at hib
        exact h2 b hb (by rw [hib]; exact hacc') o2 hmem2 (by rw [hid2, hbo])
  · intro b1' hb1' b2' hb2' hoid12 hpid12
    rw [hbeq] at hb1' hb2'
    rcases List.mem_map.mp hb1' with ⟨b1, hb1, hi1⟩
    rcases List.mem_map.mp hb2' with ⟨b2, hb2, hi2⟩
    have ho1 : b1'.orderID = b1.orderID := by rw [← hi1]; exact hmoid b1
    have ho2b : b2'.orderID = b2.orderID := by rw [← hi2]; exact hmoid b2
    have hp1 : b1'.providerID = b1.providerID := by rw [← hi1]; exact hmpid b1
    have hp2 : b2'.providerID = b2.providerID := by rw [← hi2]; exact hmpid b2
    have hb12 : b1 = b2 :=
      hpairs b1 hb1 b2 hb2 (by rw [← ho1, ← ho2b, hoid12])
        (by rw [← hp1, ← hp2, hpid12])
    rw [← hi1, ← hi2, hb12]

/-- The row `CreateOrder` hands to the store (zero-value broadcast time). -/
def newOrderRow (req : CreateOrderRequest) (oid : Uuid) (orderNumber : String) :
    Order :=
  { id := oid
    orderNumber := orderNumber
    clientID := req.clientID
    serviceProviderID := none
    status := .pending
    description := req.description
    serviceLatitude := req.serviceLatitude
    serviceLongitude := req.serviceLongitude
    serviceAddress := req.serviceAddress
    requestedTime := req.requestedTime
    broadcastTime := some timeZero
    acceptedTime := none
    arrivedTime := none
    startedTime := none
    completedTime := none
    cancelledTime := none
    durationMinutes := 0
    baseAmount := 0
    serviceFee := 0
    totalAmount := 0
    cancellationReason := ""
    cancelledBy := none }

theorem createOrder_fst (db : OrderDB) (req : CreateOrderRequest) (oid : Uuid)
    (num : String) (now : Time) :
    (createOrder db req oid num now).1 =
      db.createOrderRow (newOrderRow req oid num) := rfl

/-- C3 (amended): every order-service operation, run atomically against a
    store whose broadcast table has one row per (order, provider) pair,
    whose accepted rows are unique per order and certify a non-PENDING
    order, preserves all of it — in particular at most one broadcast row
    per order ever carries `accepted = true` under sequential execution. -/
theorem order_ops_preserve_broadcast_invariant (db : OrderDB) (op : OrderOp)
    (hpairs : BroadcastPairsUnique db) (hwf : OpWF db op) (hinv : OrderInv db) :
    OrderInv (applyOp db op).1 ∧ BroadcastPairsUnique (applyOp db op).1 := by
  cases op with
  | create req oid num now =>
    have hfst : (applyOp db (OrderOp.create req oid num now)).1 =
        db.createOrderRow (newOrderRow req oid num) := createOrder_fst db req oid num now
    rw [hfst]
    refine ⟨⟨?_, ?_⟩, ?_⟩
    · intro b1 hb1 b2 hb2
      rw [createOrderRow_broadcasts] at hb1 hb2
      exact hinv.1 b1 hb1 b2 hb2
    · intro b hb hacc o2 ho2 hid2
      rw [createOrderRow_broadcasts] at hb
      have ho2' : o2 ∈ db.orders ++ [newOrderRow req oid num] := ho2
      rcases List.mem_append.mp ho2' with hm | hm
      · exact hinv.2 b hb hacc o2 hm hid2
      · exfalso
        have ho2eq : o2 = newOrderRow req oid num := List.mem_singleton.mp hm
        apply hwf b hb
        rw [← hid2, ho2eq]
        rfl
    · intro b1 hb1 b2 hb2
      rw [createOrderRow_broadcasts] at hb1 hb2
      exact hpairs b1 hb1 b2 hb2
  | accept oid pid now =>
    cases hg : db.getByID oid with
    | none =>
      have hfst : (applyOp db (OrderOp.accept oid pid now)).1 = db := by
        simp [applyOp, acceptOrder, hg]
      rw [hfst]
      exact ⟨hinv, hpairs⟩
    | some o =>
      by_cases hs : o.status = OrderStatus.pending
      · have hfst : (applyOp db (OrderOp.accept oid pid now)).1 =
            (db.updateOrder (acceptedVersion o pid now)).markAsAccepted oid pid := by
          show (acceptOrder db oid pid now).1 = _
          rw [acceptOrder_success_eq hg hs]
        rw [hfst]
        exact inv_accept_success hg hs hpairs hinv
      · have hfst : (applyOp db (OrderOp.accept oid pid now)).1 = db := by
          simp [applyOp, acceptOrder, hg, hs]
        rw [hfst]
        exact ⟨hinv, hpairs⟩
  | onTheWay oid pid =>
    cases hg : db.getByID oid with
    | none =>
      have hfst : (applyOp db (OrderOp.onTheWay oid pid)).1 = db := by
        simp [applyOp, updateToOnTheWay, hg]
      rw [hfst]
      exact ⟨hinv, hpairs⟩
    | some o =>
      by_cases hs : o.status = OrderStatus.accepted
      · by_cases ha : o.serviceProviderID = none ∨ o.serviceProviderID ≠ some pid
        · have hfst : (applyOp db (OrderOp.onTheWay oid pid)).1 = db := by
            simp [applyOp, updateToOnTheWay, hg, hs, ha]
          rw [hfst]
          exact ⟨hinv, hpairs⟩
        · have hfst : (applyOp db (OrderOp.onTheWay oid pid)).1 =
              db.updateOrder { o with status := .onTheWay } := by
            simp [applyOp, updateToOnTheWay, hg, hs, ha]
          rw [hfst]
          refine ⟨inv_updateOrder_nonpending hinv ?_, pairs_updateOrder hpairs⟩
          intro hpend
          have hcontra : OrderStatus.onTheWay = OrderStatus.pending := hpend
          cases hcontra
      · have hfst : (applyOp db (OrderOp.onTheWay oid pid)).1 = db := by
          simp [applyOp, updateToOnTheWay, hg, hs]
        rw [hfst]
        exact ⟨hinv, hpairs⟩
  | arrived oid pid now =>
    cases hg : db.getByID oid with
    | none =>
      have hfst : (applyOp db (OrderOp.arrived oid pid now)).1 = db := by
        simp [applyOp, updateToArrived, hg]
      rw [hfst]
      exact ⟨hinv, hpairs⟩
    | some o =>
      by_cases hs : o.status = OrderStatus.onTheWay
      · by_cases ha : o.serviceProviderID = none ∨ o.serviceProviderID ≠ some pid
        · have hfst : (applyOp db (OrderOp.arrived oid pid now)).1 = db := by
            simp [applyOp, updateToArrived, hg, hs, ha]
          rw [hfst]
          exact ⟨hinv, hpairs⟩
        · have hfst : (applyOp db (OrderOp.arrived oid pid now)).1 =
              db.updateOrder { o with status := .arrived, arrivedTime := some now } := by
            simp [applyOp, updateToArrived, hg, hs, ha]
          rw [hfst]
          refine ⟨inv_updateOrder_nonpending hinv ?_, pairs_updateOrder hpairs⟩
          intro hpend
          have hcontra : OrderStatus.arrived = OrderStatus.pending := hpend
          cases hcontra
      · have hfst : (applyOp db (OrderOp.arrived oid pid now)).1 = db := by
          simp [applyOp, updateToArrived, hg, hs]
        rw [hfst]
        exact ⟨hinv, hpairs⟩
  | cancel oid cb reason now =>
    cases hg : db.getByID oid with
    | none =>
      have hfst : (applyOp db (OrderOp.cancel oid cb reason now)).1 = db := by
        simp [applyOp, cancelOrder, hg]
      rw [hfst]
      exact ⟨hinv, hpairs⟩
    | some o =>
      by_cases hs : o.status = OrderStatus.completed ∨ o.status = OrderStatus.cancelled
      · have hfst : (applyOp db (OrderOp.cancel oid cb reason now)).1 = db := by
          simp [applyOp, cancelOrder, hg, hs]
        rw [hfst]
        exact ⟨hinv, hpairs⟩
      · by_cases ha : o.clientID ≠ cb ∧
            (o.serviceProviderID = none ∨ o.serviceProviderID ≠ some cb)
        · have hfst : (applyOp db (OrderOp.cancel oid cb reason now)).1 = db := by
            simp [applyOp, cancelOrder, hg, hs, ha]
          rw [hfst]
          exact ⟨hinv, hpairs⟩
        · have hfst : (applyOp db (OrderOp.cancel oid cb reason now)).1 =
              db.updateOrder { o with status := .cancelled, cancelledTime := some now, cancelledBy := some cb, cancellationReason := reason } := by
            simp [applyOp, cancelOrder, hg, hs, ha]
          rw [hfst]
          refine ⟨inv_updateOrder_nonpending hinv ?_, pairs_updateOrder hpairs⟩
          intro hpend
          have hcontra : OrderStatus.cancelled = OrderStatus.pending := hpend
          cases hcontra

/-- C3 witness: provider 7 accepting PENDING order 1 keeps the invariant. -/
theorem order_ops_preserve_broadcast_invariant_witness :
    OrderInv (applyOp raceDB (OrderOp.accept 1 7 2)).1
  ∧ BroadcastPairsUnique (applyOp raceDB (OrderOp.accept 1 7 2)).1 :=
  order_ops_preserve_broadcast_invariant raceDB (OrderOp.accept 1 7 2)
    (by decide) (by decide) (by decide)
